import Mathlib

/-!
Verification of the electrum-xmc network interface layer.

Shallow embedding of `src/lib/pem.py` (PEM/base64 certificate codec) and
`src/lib/interface.py` (the TCP interface: response correlator, request
sender, keepalive/staleness logic, trust-on-first-use certificate pinning,
hostname checking, and the `Interface` factory).

Python strings are modelled as `List Char`, byte strings as `List Nat`
(each element in `0..255`), JSON values as an abstract type `V` together
with an explicit truthiness function `tv : V → Bool` (Python `if x:`).
Library calls (`binascii`, `ssl`, `socket`, the `x509` module which is not
part of the repository sources) are modelled as explicitly supplied
environment outcomes; file-system side effects are recorded as an explicit
trace of operations.
-/

deriving instance DecidableEq for Except

namespace Electrum

/-! ## Base64 (model of Python `binascii`, as used by `src/lib/pem.py`) -/

/-- The base64 alphabet, in encoding order. -/
def b64alphabet : List Char :=
  "ABCDEFGHIJKLMNOPQRSTUVWXYZabcdefghijklmnopqrstuvwxyz0123456789+/".toList

/-- Character for a 6-bit group (callers only pass values `< 64`). -/
def b64chr (n : Nat) : Char := b64alphabet.getD n 'A'

/-- Index of a character in the base64 alphabet (`length` if absent);
only applied to alphabet characters on the paths we verify. -/
def b64dval (c : Char) : Nat := b64alphabet.indexOf c

/-- Membership in the base64 alphabet (padding `=` excluded). -/
def isB64 (c : Char) : Bool := decide (c ∈ b64alphabet)

/-- Base64 encoding of a byte list, with `=` padding, as produced by
`binascii.b2a_base64` (without the trailing newline). -/
def b64encode : List Nat → List Char
  | [] => []
  | [x] => [b64chr (x / 4), b64chr (x % 4 * 16), '=', '=']
  | [x, y] => [b64chr (x / 4), b64chr (x % 4 * 16 + y / 16), b64chr (y % 16 * 4), '=']
  | x :: y :: z :: rest =>
    b64chr (x / 4) :: b64chr (x % 4 * 16 + y / 16) :: b64chr (y % 16 * 4 + z / 64) ::
      b64chr (z % 64) :: b64encode rest

/-- Model of `binascii.b2a_base64`: base64 plus a terminating newline. -/
def b2a_base64 (b : List Nat) : List Char := b64encode b ++ ['\n']

/-- Decoding of a run of base64 digit characters (padding already
stripped): quads give three bytes, a trailing triple two, a trailing pair
one.  A single leftover digit yields nothing here (`binascii` raises on
that shape; it cannot arise from well-formed padded input). -/
def b64dec : List Char → List Nat
  | a :: b :: c :: d :: rest =>
    (b64dval a * 4 + b64dval b / 16) :: (b64dval b % 16 * 16 + b64dval c / 4) ::
      (b64dval c % 4 * 64 + b64dval d) :: b64dec rest
  | [a, b, c] => [b64dval a * 4 + b64dval b / 16, b64dval b % 16 * 16 + b64dval c / 4]
  | [a, b] => [b64dval a * 4 + b64dval b / 16]
  | _ => []

/-- Model of `binascii.a2b_base64` (wrapped by `pem.a2b_base64`):
non-alphabet characters (newlines, padding) are ignored, the remaining
digits are decoded. -/
def a2b_base64 (s : List Char) : List Nat := b64dec (s.filter isB64)

/-! ## PEM codec (`src/lib/pem.py`) -/

/-- Line-wrapping loop of `pem.pem`: `while s1: s2 += s1[:64] + "\n"`. -/
def wrap64 : List Char → List Char
  | [] => []
  | c :: rest => (List.take 64 (c :: rest)) ++ '\n' :: wrap64 (List.drop 64 (c :: rest))
termination_by s => s.length
decreasing_by simp [List.length_drop]; omega

/-- The `-----BEGIN <name>-----` delimiter string. -/
def pemMsgPre (name : List Char) : List Char :=
  "-----BEGIN ".toList ++ name ++ "-----".toList

/-- The `-----END <name>-----` delimiter string. -/
def pemMsgPost (name : List Char) : List Char :=
  "-----END ".toList ++ name ++ "-----".toList

/-- Scanning loop of Python `str.find(pat, i)`: first index `≥ i` at
which `pat` occurs in the remaining text `s` (which is the suffix of the
full string starting at `i`). -/
def strFindAux (pat : List Char) : List Char → Nat → Option Nat
  | [], i => if pat.isPrefixOf ([] : List Char) then some i else none
  | c :: t, i => if pat.isPrefixOf (c :: t) then some i else strFindAux pat t (i + 1)

/-- Model of Python `s.find(pat, start)`: `none` for `-1`. -/
def strFind (pat s : List Char) (start : Nat) : Option Nat :=
  if start ≤ s.length then strFindAux pat (s.drop start) start else none

/-- Failure modes of `pem.dePem` (Python `SyntaxError`s). -/
inductive PemError where
  | missingPre
  | missingPost
  deriving DecidableEq, Repr

/-- Model of `pem.dePem`: locate the first `BEGIN` delimiter, then the
first `END` delimiter after it, and base64-decode the text in between. -/
def dePem (s name : List Char) : Except PemError (List Nat) :=
  let pre := pemMsgPre name
  let post := pemMsgPost name
  match strFind pre s 0 with
  | none => .error .missingPre
  | some start =>
    match strFind post s (start + pre.length) with
    | none => .error .missingPost
    | some e =>
      .ok (a2b_base64 ((s.drop (start + pre.length)).take (e - (start + pre.length))))

/-- Model of `pem.pem`: base64-encode, strip the terminating newline,
wrap at 64 characters, and surround with the delimiters (each followed by
a newline). -/
def pem (b : List Nat) (name : List Char) : List Char :=
  pemMsgPre name ++ '\n' :: (wrap64 (b2a_base64 b).dropLast ++ (pemMsgPost name ++ ['\n']))

/-! ## Request correlator (`TcpInterface.process_response`, `src/lib/interface.py`) -/

/-- Connection status constants `CS_OPENING, CS_CONNECTED, CS_FAILED = range(3)`. -/
def CS_OPENING : Nat := 0

/-- Connection status `CS_CONNECTED`. -/
def CS_CONNECTED : Nat := 1

/-- Connection status `CS_FAILED`. -/
def CS_FAILED : Nat := 2

/-- An inbound wire frame, as seen through `response.get(...)`: every
field is optional, exactly like Python dict lookup with `get`.  `V` is
the type of JSON parameter/result values. -/
structure RawResponse (V : Type) where
  id : Option Nat
  error : Option V
  result : Option V
  method : Option String
  params : Option (List V)
  deriving DecidableEq, Repr

/-- An entry of `self.unanswered_requests`: the tuple
`(method, params, request.get('id'), response_queue)` stored by
`send_requests`. -/
structure Pending (V : Type) where
  method : Option String
  params : Option (List V)
  callerId : Option V
  queue : Option Nat
  deriving DecidableEq, Repr

/-- Destination of a `queue.put`: the owner's shared `response_queue`, or
the per-request queue supplied at submission. -/
inductive Dest where
  | sharedQ
  | callerQ (q : Nat)
  deriving DecidableEq, Repr

/-- Whether the delivered dict carries an `'error'` key (the `if error:`
branch) or a `'result'` key. -/
inductive Payload (V : Type) where
  | errorP (e : V)
  | resultP (r : Option V)
  deriving DecidableEq, Repr

/-- The dict delivered by `process_response`:
`{'method': _, 'params': _, 'result'|'error': _, 'id': _}`. -/
structure OutMsg (V : Type) where
  method : Option String
  params : Option (List V)
  payload : Payload V
  callerId : Option V
  deriving DecidableEq, Repr

/-- Exceptions `process_response` can raise: `KeyError` from
`unanswered_requests.pop(msg_id)`, `TypeError` from subscripting `None`,
`IndexError` from subscripting a too-short list. -/
inductive ProcError where
  | keyError (id : Nat)
  | typeError
  | indexError
  deriving DecidableEq, Repr

/-- The part of the interface state `process_response` reads and writes:
the unanswered-requests table (a Python dict, modelled as an association
list in insertion order) and `self.server_version`.  `server_version` is
`some r` once assigned (Python attribute created on first write). -/
structure PRState (V : Type) where
  unanswered : List (Nat × Pending V)
  server_version : Option (Option V)
  deriving DecidableEq, Repr

/-- Model of `dict.pop(k)` on an association list: the removed value and
the remaining entries, or `none` (Python: `KeyError`) if absent. -/
def popAssoc (k : Nat) : List (Nat × α) → Option (α × List (Nat × α))
  | [] => none
  | (k', v) :: t =>
    if k' = k then some (v, t)
    else match popAssoc k t with
      | none => none
      | some (v', t') => some (v', (k', v) :: t')

/-- Model of `dict[k] = v` on an association list. -/
def setAssoc (k : Nat) (v : α) : List (Nat × α) → List (Nat × α)
  | [] => [(k, v)]
  | (k', v') :: t => if k' = k then (k, v) :: t else (k', v') :: setAssoc k v t

/-- The reply destination: `if queue is None: queue = self.response_queue`. -/
def destOf (q : Option Nat) : Dest :=
  match q with
  | none => Dest.sharedQ
  | some n => Dest.callerQ n

/-- The `'error'`-or-`'result'` payload choice `if error: ... else: ...`,
with `tv` the Python truthiness of a `V` value (`None` is falsy). -/
def payloadOf (tv : V → Bool) (error : Option V) (result : Option V) : Payload V :=
  match error with
  | some e => if tv e then .errorP e else .resultP result
  | none => .resultP result

/-- Model of `TcpInterface.process_response` (interface.py lines 83-120).
Returns the updated correlator state together with the list of
`queue.put` deliveries performed (in order), or the exception raised.
`tv` gives Python truthiness for `V` values. -/
def process_response (tv : V → Bool) (st : PRState V) (r : RawResponse V) :
    Except ProcError (PRState V × List (Dest × OutMsg V)) :=
  let error := r.error
  match r.id with
  | some msg_id =>
    -- method, params, _id, queue = self.unanswered_requests.pop(msg_id)
    match popAssoc msg_id st.unanswered with
    | none => .error (.keyError msg_id)
    | some (p, rest) =>
      let q := destOf p.queue
      if p.method = some "server.version" then
        .ok ({ unanswered := rest, server_version := some r.result }, [])
      else
        .ok ({ unanswered := rest, server_version := st.server_version },
          [(q, ⟨p.method, p.params, payloadOf tv error r.result, p.callerId⟩)])
  | none =>
    -- notification: method/params from the frame, delivered to the shared queue
    let method := r.method
    match
      (if method = some "blockchain.numblocks.subscribe" ∨
          method = some "blockchain.headers.subscribe" then
        match r.params with
        | none => Except.error ProcError.typeError          -- None[0]
        | some l =>
          match l.head? with
          | none => Except.error ProcError.indexError       -- [][0]
          | some x => Except.ok (some x, some ([] : List V))
      else if method = some "blockchain.address.subscribe" then
        match r.params with
        | none => Except.error ProcError.typeError
        | some l =>
          match l[0]?, l[1]? with
          | some addr, some x => Except.ok (some x, some [addr])
          | _, _ => Except.error ProcError.indexError
      else Except.ok (r.result, r.params)) with
    | .error e => .error e
    | .ok (result, params) =>
      if method = some "server.version" then
        .ok ({ st with server_version := some result }, [])
      else
        .ok (st, [(Dest.sharedQ, ⟨method, params, payloadOf tv error result, none⟩)])

/-! ## Connection worker (`TcpInterface.run` and helpers) -/

/-- A queued request, as read back by `send_requests`:
`request.get('method')`, `request.get('params')`, `request.get('id')`. -/
structure Req (V : Type) where
  method : Option String
  params : Option (List V)
  id : Option V
  deriving DecidableEq, Repr

/-- A frame put on the wire by `self.pipe.send(r)`:
`{'id': self.message_id, 'method': method, 'params': params}`. -/
structure Frame (V : Type) where
  id : Nat
  method : Option String
  params : Option (List V)
  deriving DecidableEq, Repr

/-- The mutable state of one `TcpInterface` worker that the verified
operations touch.  `sentFrames` is the trace of frames successfully
handed to `pipe.send`; `deliveries` is the trace of `response_queue` /
per-request queue `put`s, where a `none` message is the bare
`(self, None)` status notification. -/
structure WState (V : Type) where
  status : Nat
  disconnect : Bool
  message_id : Nat
  unanswered : List (Nat × Pending V)
  request_queue : List (Req V × Option Nat)
  request_time : Int
  ping_time : Int
  server_version : Option (Option V)
  sentFrames : List (Frame V)
  deliveries : List (Dest × Option (OutMsg V))
  deriving DecidableEq, Repr

/-- Model of `TcpInterface.is_connected`:
`self._status == CS_CONNECTED and not self.disconnect`. -/
def is_connected (st : WState V) : Bool :=
  decide (st.status = CS_CONNECTED) && !st.disconnect

/-- Model of `TcpInterface.stop` (idempotent: only sets the flag). -/
def stop (st : WState V) : WState V := { st with disconnect := true }

/-- Model of `TcpInterface.send_request`: records the submission time and
enqueues the request with its optional private reply queue.  `now` is the
value of `time.time()`. -/
def send_request (now : Int) (req : Req V) (rq : Option Nat) (st : WState V) : WState V :=
  { st with request_time := now, request_queue := st.request_queue ++ [(req, rq)] }

/-- Model of `TcpInterface.send_requests` (interface.py lines 237-253).
`oks` gives the outcome of each successive `pipe.send` (`headD true`:
the oracle lists the socket failures, further sends succeed).  A failed
send logs, calls `stop()` and returns; a successful send records the
pending request under the current `message_id` and increments it. -/
def send_requests (oks : List Bool) (st : WState V) : WState V :=
  if is_connected st then
    match h : st.request_queue with
    | [] => st
    | (req, rq) :: rest =>
      if oks.headD true then
        send_requests oks.tail
          { st with
            request_queue := rest,
            unanswered := setAssoc st.message_id ⟨req.method, req.params, req.id, rq⟩
              st.unanswered,
            message_id := st.message_id + 1,
            sentFrames := st.sentFrames ++ [⟨st.message_id, req.method, req.params⟩] }
      else stop { st with request_queue := rest }
  else st
termination_by st.request_queue.length
decreasing_by simp_all

/-- Model of `TcpInterface.maybe_ping` (interface.py lines 264-272).
`now` models `time.time()` for the duration of the call, `idle` models
`self.pipe.idle_time()`, and `pingParams` the pair
`[ELECTRUM_VERSION, PROTOCOL_VERSION]` (the `version` module is not part
of these sources).  First the keepalive: if more than 60 time-units have
passed since the last ping, submit a `server.version` request (which, via
`send_request`, resets `request_time`).  Then the staleness check: with a
nonempty unanswered table, more than 10 time-units since the last
submission and more than 10 time-units of transport idleness, `stop()`. -/
def maybe_ping (now idle : Int) (pingParams : List V) (st : WState V) : WState V :=
  let st1 :=
    if now - st.ping_time > 60 then
      { send_request now ⟨some "server.version", some pingParams, none⟩ none st with
        ping_time := now }
    else st
  if !st1.unanswered.isEmpty && decide (now - st1.request_time > 10) &&
      decide (idle > 10) then
    stop st1
  else st1

/-- One inbound event for `get_and_process_response`: a `util.timeout`
from `pipe.get()`, a remote close (`pipe.get()` returned `None`), or a
parsed frame. -/
inductive InboundEv (V : Type) where
  | timeoutEv
  | closedEv
  | frameEv (r : RawResponse V)
  deriving DecidableEq, Repr

/-- Model of `TcpInterface.get_and_process_response`: only acts when
connected; a timeout is a no-op, a remote close sets `disconnect`, and a
frame is handed to `process_response` (whose exceptions propagate and
kill the thread). -/
def get_and_process_response (tv : V → Bool) (ev : InboundEv V) (st : WState V) :
    Except ProcError (WState V) :=
  if is_connected st then
    match ev with
    | .timeoutEv => .ok st
    | .closedEv => .ok { st with disconnect := true }
    | .frameEv r =>
      match process_response tv ⟨st.unanswered, st.server_version⟩ r with
      | .error e => .error e
      | .ok (pst, ds) =>
        .ok { st with
          unanswered := pst.unanswered,
          server_version := pst.server_version,
          deliveries := st.deliveries ++ ds.map (fun dm => (dm.1, some dm.2)) }
  else .ok st

/-- The per-iteration environment of the worker loop: the current clock,
the transport idle time, the keepalive parameter values, the `pipe.send`
outcomes, and the inbound event. -/
structure IterEnv (V : Type) where
  now : Int
  idle : Int
  pingParams : List V
  sendOk : List Bool
  inbound : InboundEv V
  deriving DecidableEq, Repr

/-- One iteration of the body of the `while self.is_connected()` loop in
`TcpInterface.run`: `maybe_ping()`, `send_requests()`,
`get_and_process_response()`. -/
def iterate (tv : V → Bool) (e : IterEnv V) (st : WState V) : Except ProcError (WState V) :=
  get_and_process_response tv e.inbound
    (send_requests e.sendOk (maybe_ping e.now e.idle e.pingParams st))

/-- The loop-exit tail of `TcpInterface.run`: close the socket, set
`_status = CS_FAILED`, and `notify_status()` (a `(self, None)` put on the
owner's shared queue). -/
def finish (st : WState V) : WState V :=
  { st with status := CS_FAILED, deliveries := st.deliveries ++ [(Dest.sharedQ, none)] }

/-- The `while self.is_connected()` loop of `TcpInterface.run`, driven by
one `IterEnv` per iteration.  When the loop condition fails the worker
runs `finish`; an exhausted environment list is the modelling horizon
(the loop is still running).  A `ProcError` propagates: the thread dies
without reaching the `CS_FAILED` transition. -/
def workerLoop (tv : V → Bool) : List (IterEnv V) → WState V → Except ProcError (WState V)
  | [], st => .ok st
  | e :: rest, st =>
    if is_connected st then
      match iterate tv e st with
      | .error err => .error err
      | .ok st' => workerLoop tv rest st'
    else .ok (finish st)

/-! ## Hostname checking (`_match_hostname`, `check_host_name`) -/

/-- Model of `_match_hostname(name, val)` (interface.py lines 314-318):
exact equality, or a `*.`-wildcard `val` whose tail `val[1:]` (the
leading `*` removed) is a suffix of `name`. -/
def matchHostname (name val : List Char) : Bool :=
  if val = name then true
  else decide (['*', '.'] <+: val) && decide (val.drop 1 <:+ name)

/-- The portion of an `ssl` peer-certificate dict that
`check_host_name` reads: the optional `subjectAltName` entries (type/value
pairs) and the optional `subject` attribute/value pairs. -/
structure PeerCert where
  san : Option (List (String × List Char))
  subject : Option (List (String × List Char))
  deriving DecidableEq, Repr

/-- Model of `check_host_name(peercert, name)` (interface.py lines
321-342).  `none` models Python `None`; a cert with neither field models
the empty dict `{}` (`not peercert` is then true).  With a
`subjectAltName`, any `DNS` entry may match; otherwise the last
`commonName` of the subject is checked. -/
def check_host_name (peercert : Option PeerCert) (name : List Char) : Bool :=
  match peercert with
  | none => false
  | some c =>
    if c.san = none ∧ c.subject = none then false   -- `not peercert` on the empty dict
    else
      match c.san with
      | some entries => entries.any fun e => decide (e.1 = "DNS") && matchHostname name e.2
      | none =>
        match c.subject with
        | some l =>
          -- cn is the most-specific (last) commonName attribute
          match (l.filterMap fun e => if e.1 = "commonName" then some e.2 else none).getLast? with
          | some cn => matchHostname name cn
          | none => false
        | none => false

/-! ## Trust-on-first-use certificate pinning (`TcpInterface.get_socket`) -/

/-- Outcome of one `ssl.wrap_socket` handshake: success, an
`ssl.SSLError` with its `errno`, or another exception with an `errno`
(the `except BaseException` arm). -/
inductive WrapResult where
  | wrapOk
  | sslErr (errno : Int)
  | otherErr (errno : Int)
  deriving DecidableEq, Repr

/-- The environment of one `get_socket` call: file-existence answers and
the outcomes of the library calls, in the order the code can make them.
`parseOk` models `pem.dePem` plus `x509.X509` succeeding on the stored
certificate, and `dateOk` models `x509.X509.check_date` not raising (the
`x509` module is not part of these sources; both are treated as
environment outcomes). -/
structure TlsEnv where
  pinExists : Bool      -- os.path.exists(cert_path)
  rejExists : Bool      -- os.path.exists(cert_path + '.rej')
  sock1Ok : Bool        -- first get_simple_socket (CA-validated attempt)
  caWrapOk : Bool       -- ssl.wrap_socket against the CA bundle
  peercert : Option PeerCert  -- s.getpeercert() on the CA-validated socket
  sock2Ok : Bool        -- second get_simple_socket (certificate retrieval)
  retrieveWrapOk : Bool -- ssl.wrap_socket with CERT_NONE
  sock3Ok : Bool        -- get_simple_socket before the pinned handshake
  finalWrap : WrapResult  -- ssl.wrap_socket pinned to temp/stored certificate
  parseOk : Bool
  dateOk : Bool
  deriving DecidableEq, Repr

/-- The kind of socket `get_socket` returns. -/
inductive SockKind where
  | caSock      -- CA-validated TLS socket (no pin involved)
  | pinnedSock  -- TLS socket validated against the temp/stored pin
  | plainSock   -- plain TCP
  deriving DecidableEq, Repr

/-- A file-system side effect of `get_socket`, recorded in order. -/
inductive FsOp where
  | writeTemp        -- write retrieved certificate to cert_path + '.temp'
  | unlinkRej        -- os.unlink(cert_path + '.rej')
  | renameTempToRej  -- os.rename(temporary_path, cert_path + '.rej')
  | unlinkCert       -- os.unlink(cert_path)
  | renameTempToCert -- os.rename(temporary_path, cert_path)
  deriving DecidableEq, Repr

/-- The tail of `get_socket` from `s = self.get_simple_socket()` (line
181) onward, shared by the new-pin and stored-pin paths: the final
handshake pinned to the temporary (`isNew`) or stored certificate, and
the failure handling of lines 192-228. -/
def get_socket_final (isNew : Bool) (ops : List FsOp) (env : TlsEnv) :
    Option SockKind × List FsOp :=
  if !env.sock3Ok then (none, ops)
  else
    match env.finalWrap with
    | .wrapOk =>
      if isNew then (some .pinnedSock, ops ++ [.renameTempToCert])
      else (some .pinnedSock, ops)
    | .sslErr errno =>
      if errno ≠ 1 then (none, ops)
      else if isNew then
        (none, ops ++ (if env.rejExists then [.unlinkRej, .renameTempToRej]
                       else [.renameTempToRej]))
      else
        if !env.parseOk then (none, ops)          -- "wrong certificate" (parse failure)
        else if !env.dateOk then (none, ops ++ [.unlinkCert])  -- "certificate has expired"
        else (none, ops)                          -- "wrong certificate"
    | .otherErr _ => (none, ops)

/-- Model of `TcpInterface.get_socket` (interface.py lines 142-230),
returning the socket obtained (if any) and the trace of file-system
operations performed.  For a TLS endpoint with no stored pin: try a
CA-validated handshake with hostname check; failing that, retrieve the
peer certificate over a fresh unvalidated connection and stage it in the
`.temp` file; then (in either pin case) handshake pinned to the staged or
stored certificate. -/
def get_socket (useSsl : Bool) (host : List Char) (env : TlsEnv) :
    Option SockKind × List FsOp :=
  if useSsl then
    if !env.pinExists then
      if !env.sock1Ok then (none, [])
      else if env.caWrapOk && check_host_name env.peercert host then (some .caSock, [])
      else if !env.sock2Ok then (none, [])
      else if !env.retrieveWrapOk then (none, [])
      else get_socket_final true [.writeTemp] env
    else get_socket_final false [] env
  else if !env.sock3Ok then (none, []) else (some .plainSock, [])

/-- Presence of the three trust-store files for one host:
`certs/<host>`, `certs/<host>.temp`, `certs/<host>.rej`. -/
structure FsState where
  pin : Bool
  temp : Bool
  rej : Bool
  deriving DecidableEq, Repr

/-- Effect of one file-system operation on the trust store (a rename
replaces the destination file; nothing is ever appended). -/
def applyFsOp (fs : FsState) : FsOp → FsState
  | .writeTemp => { fs with temp := true }
  | .unlinkRej => { fs with rej := false }
  | .renameTempToRej => { fs with temp := false, rej := true }
  | .unlinkCert => { fs with pin := false }
  | .renameTempToCert => { fs with temp := false, pin := true }

/-- Effect of a trace of file-system operations, applied in order. -/
def applyFsOps (fs : FsState) (ops : List FsOp) : FsState := ops.foldl applyFsOp fs

/-! ## `Interface` factory (interface.py lines 35-50) -/

/-- Python substring containment `a in b` for strings. -/
def substrIn (a b : List Char) : Bool := (strFindAux a b 0).isSome

/-- Model of Python `str.split(sep)` for a one-character separator:
splits at every occurrence, keeping empty pieces. -/
def pySplit (sep : Char) : List Char → List (List Char)
  | [] => [[]]
  | c :: t =>
    if c = sep then [] :: pySplit sep t
    else
      match pySplit sep t with
      | [] => [[c]]
      | h :: r => (c :: h) :: r

/-- What the `Interface` factory produces. -/
inductive IfaceKind where
  | tcpInterface
  deriving DecidableEq, Repr

/-- Exceptions the `Interface` factory raises: `Exception('Unknown
protocol: ...')`, or the `ValueError` from unpacking `server.split(':')`
into three names. -/
inductive IfaceError where
  | unknownProtocol
  | valueError
  deriving DecidableEq, Repr

/-- Model of the `Interface` factory function: split the server string on
`:` into host, port and protocol, and build a `TcpInterface` when
`protocol in 'st'` (Python substring containment on the string "st"). -/
def Interface (server : List Char) : Except IfaceError IfaceKind :=
  match pySplit ':' server with
  | [_host, _port, protocol] =>
    if substrIn protocol ['s', 't'] then .ok .tcpInterface
    else .error .unknownProtocol
  | _ => .error .valueError

/-! ## Theorems -/

/-- C10: `check_host_name` returns `False` when the peer supplied no
certificate (`None` or an empty mapping); and `_match_hostname(name,
val)` returns `True` exactly when `val` equals `name`, or `val` begins
with `*.` and `name` ends with `val` with its leading `*` removed — so a
wildcard certificate for `*.D` matches any name ending in `.D`
(subdomain labels included) but never the bare domain `D` itself. -/
theorem claim_c10_hostname :
    (∀ name, check_host_name none name = false)
    ∧ (∀ name, check_host_name (some ⟨none, none⟩) name = false)
    ∧ (∀ name val, matchHostname name val = true ↔
        (val = name ∨ (['*', '.'] <+: val ∧ val.drop 1 <:+ name)))
    ∧ (∀ a d, matchHostname (a ++ '.' :: d) ('*' :: '.' :: d) = true)
    ∧ (∀ d, matchHostname d ('*' :: '.' :: d) = false) := by
  refine ⟨fun name => rfl, fun name => rfl, ?_, ?_, ?_⟩
  · intro name val
    unfold matchHostname
    split
    · simp [*]
    · simp_all
  · intro a d
    unfold matchHostname
    split
    · rfl
    · simp only [Bool.and_eq_true, decide_eq_true_eq]
      exact ⟨⟨d, rfl⟩, ⟨a, rfl⟩⟩
  · intro d
    unfold matchHostname
    split
    · next h =>
      exact absurd (congrArg List.length h) (by simp; omega)
    · simp only [Bool.and_eq_false_iff, decide_eq_false_iff_not]
      right
      intro hsuf
      have := hsuf.length_le
      simp at this

/-- A separator-free string splits to itself. -/
theorem pySplit_no_sep (sep : Char) (a : List Char) (ha : sep ∉ a) :
    pySplit sep a = [a] := by
  induction a with
  | nil => rfl
  | cons c t ih =>
    simp only [List.mem_cons, not_or] at ha
    simp [pySplit, Ne.symm ha.1, ih ha.2]

/-- Splitting peels off the first separator-free piece. -/
theorem pySplit_append (sep : Char) (a r : List Char) (ha : sep ∉ a) :
    pySplit sep (a ++ sep :: r) = a :: pySplit sep r := by
  induction a with
  | nil => simp [pySplit]
  | cons c t ih =>
    simp only [List.mem_cons, not_or] at ha
    have hne : ¬c = sep := Ne.symm ha.1
    simp [pySplit, hne, ih ha.2]

/-- The substrings of `"st"` are exactly `""`, `"s"`, `"t"`, `"st"`. -/
theorem substrIn_st (pr : List Char) :
    substrIn pr ['s', 't'] = true ↔
      pr ∈ [([] : List Char), ['s'], ['t'], ['s', 't']] := by
  rcases pr with _ | ⟨c1, _ | ⟨c2, t⟩⟩
  · simp [substrIn, strFindAux]
  · by_cases h1 : c1 = 's' <;> by_cases h2 : c1 = 't' <;>
      simp_all [substrIn, strFindAux, List.isPrefixOf]
  · by_cases h1 : c1 = 's' <;> by_cases h2 : c2 = 't' <;> by_cases h3 : c1 = 't' <;>
      cases t <;> simp_all [substrIn, strFindAux, List.isPrefixOf]

/-- C9: corrected.  For a well-formed `host:port:scheme` address the
factory accepts exactly the schemes that are contiguous substrings of
`"st"` — Python's `protocol in 'st'` is substring containment, so the
empty scheme and `"st"` are also accepted, not only `"t"` and `"s"`; any
other scheme raises `Unknown protocol`. -/
theorem claim_c9_amended (host port scheme : List Char)
    (hh : ':' ∉ host) (hp : ':' ∉ port) (hs : ':' ∉ scheme) :
    Interface (host ++ ':' :: (port ++ ':' :: scheme)) =
      (if scheme ∈ [([] : List Char), ['s'], ['t'], ['s', 't']] then
        Except.ok IfaceKind.tcpInterface
      else Except.error IfaceError.unknownProtocol) := by
  have hsplit : pySplit ':' (host ++ ':' :: (port ++ ':' :: scheme)) =
      [host, port, scheme] := by
    rw [pySplit_append ':' host _ hh, pySplit_append ':' port _ hp,
      pySplit_no_sep ':' scheme hs]
  unfold Interface
  rw [hsplit]
  by_cases h : scheme ∈ [([] : List Char), ['s'], ['t'], ['s', 't']]
  · simp [h, (substrIn_st scheme).mpr h]
  · have hfalse : substrIn scheme ['s', 't'] = false := by
      cases hb : substrIn scheme ['s', 't']
      · rfl
      · exact absurd ((substrIn_st scheme).mp hb) h
    simp [h, hfalse]

/-- C9 witness: the amended claim at the address `"h:50002:s"` (accepted)
and at `"h:50002:x"` (rejected). -/
theorem claim_c9_amended_witness :
    Interface ("h:50002:s".toList) = Except.ok IfaceKind.tcpInterface
    ∧ Interface ("h:50002:x".toList) = Except.error IfaceError.unknownProtocol := by
  constructor
  · have := claim_c9_amended "h".toList "50002".toList "s".toList
      (by decide) (by decide) (by decide)
    simpa using this
  · have := claim_c9_amended "h".toList "50002".toList "x".toList
      (by decide) (by decide) (by decide)
    simpa using this

/-- C9 counterexample: the scheme `"st"` is neither `"t"` nor `"s"`, yet
the factory accepts `"host:50002:st"` instead of raising `Unknown
protocol` (and likewise accepts the empty scheme). -/
theorem claim_c9_counterexample :
    Interface ("host:50002:st".toList) = Except.ok IfaceKind.tcpInterface
    ∧ Interface ("host:50002:".toList) = Except.ok IfaceKind.tcpInterface := by
  constructor <;> rfl

/-- C1: corrected.  When an inbound frame's `id` matches a pending
request whose recorded method is not `server.version`, the recorded
`{method, params, callerId, result|error}` dict is delivered exactly once
to that request's reply target (the owner's shared queue when none was
supplied), and the pending entry is removed.  But an `id` matching no
pending request is NOT logged-and-dropped: `unanswered_requests.pop`
raises `KeyError`, which propagates and kills the worker thread. -/
theorem claim_c1_amended (tv : V → Bool) (st : PRState V) (r : RawResponse V) (mid : Nat)
    (hid : r.id = some mid) :
    (∀ p rest, popAssoc mid st.unanswered = some (p, rest) →
      p.method ≠ some "server.version" →
      process_response tv st r =
        .ok ({ unanswered := rest, server_version := st.server_version },
          [(destOf p.queue, ⟨p.method, p.params, payloadOf tv r.error r.result, p.callerId⟩)]))
    ∧ (popAssoc mid st.unanswered = none →
      process_response tv st r = .error (.keyError mid)) := by
  constructor
  · intro p rest hpop hm
    simp [process_response, hid, hpop, hm]
  · intro hpop
    simp [process_response, hid, hpop]

/-- C1 witness: a matched response delivered once to its private reply
queue, and an unmatched id raising `KeyError`. -/
theorem claim_c1_amended_witness :
    process_response (fun v : Nat => decide (v ≠ 0))
        ⟨[(0, ⟨some "m", some [1], some 7, some 2⟩)], none⟩
        ⟨some 0, none, some 42, none, none⟩ =
      .ok (⟨[], none⟩,
        [(Dest.callerQ 2, ⟨some "m", some [1], Payload.resultP (some 42), some 7⟩)])
    ∧ process_response (fun v : Nat => decide (v ≠ 0)) ⟨[], none⟩
        ⟨some 1, none, none, none, none⟩ = .error (.keyError 1) := by
  constructor
  · exact (claim_c1_amended (fun v : Nat => decide (v ≠ 0))
      ⟨[(0, ⟨some "m", some [1], some 7, some 2⟩)], none⟩
      ⟨some 0, none, some 42, none, none⟩ 0 rfl).1
      ⟨some "m", some [1], some 7, some 2⟩ [] rfl (by simp)
  · exact (claim_c1_amended (fun v : Nat => decide (v ≠ 0)) ⟨[], none⟩
      ⟨some 1, none, none, none, none⟩ 1 rfl).2 rfl

/-- C1 counterexample: with an empty unanswered-requests table, a frame
carrying `id = 0` makes `process_response` raise `KeyError` — it is not
dropped with the worker continuing, as the claim states. -/
theorem claim_c1_counterexample :
    process_response (fun v : Nat => decide (v ≠ 0)) ⟨[], none⟩
        ⟨some 0, none, some 42, none, none⟩ = .error (.keyError 0)
    ∧ process_response (fun v : Nat => decide (v ≠ 0)) ⟨[], none⟩
        ⟨some 0, none, some 42, none, none⟩ ≠ .ok (⟨[], none⟩, []) := by
  exact ⟨rfl, by decide⟩

/-- C3: whenever `process_response` resolves a message's method to
`server.version` — a response matched to a pending request (the keepalive
ping included), or an id-less frame whose own method is `server.version`
— it records the frame's `result` in `server_version` and enqueues
nothing at all. -/
theorem claim_c3_server_version (tv : V → Bool) (st : PRState V) (r : RawResponse V) :
    (∀ mid p rest, r.id = some mid →
      popAssoc mid st.unanswered = some (p, rest) →
      p.method = some "server.version" →
      process_response tv st r = .ok ({ unanswered := rest, server_version := some r.result }, []))
    ∧ (r.id = none → r.method = some "server.version" →
      process_response tv st r =
        .ok ({ st with server_version := some r.result }, [])) := by
  constructor
  · intro mid p rest hid hpop hm
    simp [process_response, hid, hpop, hm]
  · intro hid hm
    simp [process_response, hid, hm]

/-- C3 witness: a matched `server.version` response (as the keepalive
produces) and an id-less `server.version` frame, both consumed
internally with the result recorded and nothing enqueued. -/
theorem claim_c3_server_version_witness :
    process_response (fun v : Nat => decide (v ≠ 0))
        ⟨[(5, ⟨some "server.version", some [1, 2], none, some 9⟩)], none⟩
        ⟨some 5, none, some 13, none, none⟩ = .ok (⟨[], some (some 13)⟩, [])
    ∧ process_response (fun v : Nat => decide (v ≠ 0)) ⟨[], none⟩
        ⟨none, none, some 13, some "server.version", none⟩ = .ok (⟨[], some (some 13)⟩, []) := by
  constructor
  · exact (claim_c3_server_version (fun v : Nat => decide (v ≠ 0))
      ⟨[(5, ⟨some "server.version", some [1, 2], none, some 9⟩)], none⟩
      ⟨some 5, none, some 13, none, none⟩).1 5
      ⟨some "server.version", some [1, 2], none, some 9⟩ [] rfl rfl rfl
  · exact (claim_c3_server_version (fun v : Nat => decide (v ≠ 0)) ⟨[], none⟩
      ⟨none, none, some 13, some "server.version", none⟩).2 rfl rfl

/-- C4: corrected.  For an id-less frame whose `error` field is absent or
falsy, the three subscription notifications are renormalized as claimed
(`numblocks`/`headers`: result from `params[0]`, params cleared;
`address`: result from `params[1]`, params `[params[0]]`) and delivered
to the owner's shared queue.  A frame with a truthy `error` field is
still delivered to the shared queue with renormalized params, but carries
an `error` payload instead of the claimed `result`. -/
theorem claim_c4_amended (tv : V → Bool) (st : PRState V) (r : RawResponse V)
    (hid : r.id = none) (herr : ∀ e, r.error = some e → tv e = false) :
    (∀ x l, r.method = some "blockchain.numblocks.subscribe" → r.params = some (x :: l) →
      process_response tv st r =
        .ok (st, [(Dest.sharedQ, ⟨r.method, some [], Payload.resultP (some x), none⟩)]))
    ∧ (∀ x l, r.method = some "blockchain.headers.subscribe" → r.params = some (x :: l) →
      process_response tv st r =
        .ok (st, [(Dest.sharedQ, ⟨r.method, some [], Payload.resultP (some x), none⟩)]))
    ∧ (∀ a x l, r.method = some "blockchain.address.subscribe" → r.params = some (a :: x :: l) →
      process_response tv st r =
        .ok (st, [(Dest.sharedQ, ⟨r.method, some [a], Payload.resultP (some x), none⟩)])) := by
  have hpay : ∀ res : Option V, payloadOf tv r.error res = Payload.resultP res := by
    intro res
    unfold payloadOf
    cases he : r.error with
    | none => rfl
    | some e => simp [herr e he]
  refine ⟨?_, ?_, ?_⟩
  · intro x l hm hp
    simp [process_response, hid, hm, hp, hpay]
  · intro x l hm hp
    simp [process_response, hid, hm, hp, hpay]
  · intro a x l hm hp
    simp [process_response, hid, hm, hp, hpay]

/-- C4 witness: the three notification shapes at concrete values, each
delivered to the shared queue in the renormalized form. -/
theorem claim_c4_amended_witness :
    process_response (fun v : Nat => decide (v ≠ 0)) ⟨[], none⟩
        ⟨none, none, none, some "blockchain.numblocks.subscribe", some [5]⟩ =
      .ok (⟨[], none⟩, [(Dest.sharedQ,
        ⟨some "blockchain.numblocks.subscribe", some [], Payload.resultP (some 5), none⟩)])
    ∧ process_response (fun v : Nat => decide (v ≠ 0)) ⟨[], none⟩
        ⟨none, none, none, some "blockchain.headers.subscribe", some [6]⟩ =
      .ok (⟨[], none⟩, [(Dest.sharedQ,
        ⟨some "blockchain.headers.subscribe", some [], Payload.resultP (some 6), none⟩)])
    ∧ process_response (fun v : Nat => decide (v ≠ 0)) ⟨[], none⟩
        ⟨none, none, none, some "blockchain.address.subscribe", some [8, 9]⟩ =
      .ok (⟨[], none⟩, [(Dest.sharedQ,
        ⟨some "blockchain.address.subscribe", some [8], Payload.resultP (some 9), none⟩)]) := by
  refine ⟨?_, ?_, ?_⟩
  · exact (claim_c4_amended (fun v : Nat => decide (v ≠ 0)) ⟨[], none⟩
      ⟨none, none, none, some "blockchain.numblocks.subscribe", some [5]⟩
      rfl (by simp)).1 5 [] rfl rfl
  · exact (claim_c4_amended (fun v : Nat => decide (v ≠ 0)) ⟨[], none⟩
      ⟨none, none, none, some "blockchain.headers.subscribe", some [6]⟩
      rfl (by simp)).2.1 6 [] rfl rfl
  · exact (claim_c4_amended (fun v : Nat => decide (v ≠ 0)) ⟨[], none⟩
      ⟨none, none, none, some "blockchain.address.subscribe", some [8, 9]⟩
      rfl (by simp)).2.2 8 9 [] rfl rfl

/-- C4 counterexample: an id-less `numblocks` notification carrying a
truthy `error` field is delivered with an `error` payload, not with
`result = params[0]` as the claim states for every id-less frame. -/
theorem claim_c4_counterexample :
    process_response (fun v : Nat => decide (v ≠ 0)) ⟨[], none⟩
        ⟨none, some 1, none, some "blockchain.numblocks.subscribe", some [5]⟩ =
      .ok (⟨[], none⟩, [(Dest.sharedQ,
        ⟨some "blockchain.numblocks.subscribe", some [], Payload.errorP 1, none⟩)])
    ∧ process_response (fun v : Nat => decide (v ≠ 0)) ⟨[], none⟩
        ⟨none, some 1, none, some "blockchain.numblocks.subscribe", some [5]⟩ ≠
      .ok (⟨[], none⟩, [(Dest.sharedQ,
        ⟨some "blockchain.numblocks.subscribe", some [], Payload.resultP (some 5), none⟩)]) := by
  exact ⟨rfl, by decide⟩

/-- C5: corrected.  When the handshake pinned to a pre-existing stored
certificate fails with the certificate SSL error (`errno == 1`) and the
stored certificate's validity period has expired (per the independent
`x509.check_date` check, the certificate itself being parseable),
`get_socket` deletes the pinned certificate file and returns no socket,
leaving no pin for the next attempt.  For pinned-handshake failures with
any other `errno` the code returns no socket WITHOUT deleting the
expired pin. -/
theorem claim_c5_amended (host : List Char) (env : TlsEnv)
    (h0 : env.sock3Ok = true)
    (h1 : env.pinExists = true) (h2 : env.finalWrap = WrapResult.sslErr 1)
    (h3 : env.parseOk = true) (h4 : env.dateOk = false) :
    get_socket true host env = (none, [FsOp.unlinkCert])
    ∧ ∀ fs, (applyFsOps fs (get_socket true host env).2).pin = false := by
  have hmain : get_socket true host env = (none, [FsOp.unlinkCert]) := by
    unfold get_socket get_socket_final
    simp [h0, h1, h2, h3, h4]
  refine ⟨hmain, fun fs => ?_⟩
  rw [hmain]
  rfl

/-- C5 witness: a concrete environment with a stored pin, a
certificate-error handshake failure and an expired certificate: the pin
file is unlinked and no socket is returned. -/
theorem claim_c5_amended_witness :
    get_socket true "h".toList
        ⟨true, false, true, false, none, true, true, true, WrapResult.sslErr 1, true, false⟩ =
      (none, [FsOp.unlinkCert])
    ∧ (applyFsOps ⟨true, false, false⟩
        (get_socket true "h".toList
          ⟨true, false, true, false, none, true, true, true,
            WrapResult.sslErr 1, true, false⟩).2).pin = false := by
  have h := claim_c5_amended "h".toList
    ⟨true, false, true, false, none, true, true, true, WrapResult.sslErr 1, true, false⟩
    rfl rfl rfl rfl rfl
  exact ⟨h.1, h.2 ⟨true, false, false⟩⟩

/-- C5 counterexample: the stored pin is expired and the pinned handshake
fails, but with `errno = 2`; the code returns no socket without deleting
the pin, contradicting the claim that every pinned-handshake failure with
an expired stored certificate removes the pin. -/
theorem claim_c5_counterexample :
    get_socket true "h".toList
        ⟨true, false, true, false, none, true, true, true, WrapResult.sslErr 2, true, false⟩ =
      (none, [])
    ∧ FsOp.unlinkCert ∉
      (get_socket true "h".toList
        ⟨true, false, true, false, none, true, true, true,
          WrapResult.sslErr 2, true, false⟩).2 := by
  exact ⟨rfl, by decide⟩

/-- C6: on a pinned-handshake certificate failure (`errno == 1`): if the
pin was staged during this very attempt, any prior `.rej` artifact is
unlinked first and the staged `.temp` certificate is renamed to `.rej`
(so the artifact is replaced, never appended to) and no socket is
returned; if instead the pin pre-existed and its validity period has not
expired, any handshake failure returns no socket with an empty
file-system trace — the stored pin file is untouched.  For a
just-created pin, failures with `errno ≠ 1` leave the `.temp` file in
place without creating the `.rej` artifact. -/
theorem claim_c6_amended (host : List Char) (env : TlsEnv) :
    (env.pinExists = false → env.sock1Ok = true →
      (env.caWrapOk && check_host_name env.peercert host) = false →
      env.sock2Ok = true → env.retrieveWrapOk = true → env.sock3Ok = true →
      env.finalWrap = WrapResult.sslErr 1 →
      get_socket true host env =
        (none, FsOp.writeTemp ::
          (if env.rejExists then [FsOp.unlinkRej, FsOp.renameTempToRej]
           else [FsOp.renameTempToRej]))
      ∧ ∀ fs, (applyFsOps fs (get_socket true host env).2).rej = true
        ∧ (applyFsOps fs (get_socket true host env).2).temp = false)
    ∧ (env.pinExists = true → env.dateOk = true →
      (∀ k, env.finalWrap = WrapResult.sslErr k ∨ env.finalWrap = WrapResult.otherErr k →
        get_socket true host env = (none, [])
        ∧ ∀ fs, applyFsOps fs (get_socket true host env).2 = fs)) := by
  constructor
  · intro hpin hs1 hca hs2 hrw hs3 hfw
    have hmain : get_socket true host env =
        (none, FsOp.writeTemp ::
          (if env.rejExists then [FsOp.unlinkRej, FsOp.renameTempToRej]
           else [FsOp.renameTempToRej])) := by
      unfold get_socket get_socket_final
      cases hrej : env.rejExists <;>
        simp [hpin, hs1, hca, hs2, hrw, hs3, hfw, hrej]
    refine ⟨hmain, fun fs => ?_⟩
    rw [hmain]
    cases hrej : env.rejExists <;> simp [hrej, applyFsOps, applyFsOp]
  · intro hpin hdate k hfw
    have hmain : get_socket true host env = (none, []) := by
      unfold get_socket get_socket_final
      rcases hfw with hfw | hfw <;>
        cases hs : env.sock3Ok <;>
        cases hp : env.parseOk <;>
        rcases eq_or_ne k 1 with hk | hk <;>
        simp_all [hpin, hdate]
    refine ⟨hmain, fun fs => ?_⟩
    rw [hmain]
    rfl

/-- C6 witness: the amended claim at two concrete environments — a
freshly staged pin rejected by the handshake (with a pre-existing `.rej`
artifact, which is removed before the rename), and a pre-existing
unexpired pin with a failing handshake (file system untouched). -/
theorem claim_c6_amended_witness :
    get_socket true "h".toList
        ⟨false, true, true, false, none, true, true, true, WrapResult.sslErr 1, true, true⟩ =
      (none, [FsOp.writeTemp, FsOp.unlinkRej, FsOp.renameTempToRej])
    ∧ get_socket true "h".toList
        ⟨true, true, true, false, none, true, true, true, WrapResult.sslErr 1, true, true⟩ =
      (none, []) := by
  constructor
  · have h := (claim_c6_amended "h".toList
      ⟨false, true, true, false, none, true, true, true, WrapResult.sslErr 1, true, true⟩).1
      rfl rfl rfl rfl rfl rfl rfl
    simpa using h.1
  · have h := (claim_c6_amended "h".toList
      ⟨true, true, true, false, none, true, true, true, WrapResult.sslErr 1, true, true⟩).2
      rfl rfl 1 (Or.inl rfl)
    exact h.1

/-- C6 counterexample: a pinned-certificate handshake failure on a
just-created pin with `errno = 2`: the staged certificate is NOT renamed
to the `.rej` artifact (the trace contains only the staging write),
contradicting the claim that every such failure produces the rejected
artifact. -/
theorem claim_c6_counterexample :
    get_socket true "h".toList
        ⟨false, false, true, false, none, true, true, true, WrapResult.sslErr 2, true, true⟩ =
      (none, [FsOp.writeTemp])
    ∧ FsOp.renameTempToRej ∉
      (get_socket true "h".toList
        ⟨false, false, true, false, none, true, true, true,
          WrapResult.sslErr 2, true, true⟩).2 := by
  exact ⟨rfl, by decide⟩

/-- C8: corrected.  If at least one request is unanswered, more than 10
time-units have passed since the last submission, the transport has been
idle more than 10 time-units AND the keepalive is not itself due (at most
60 time-units since the last ping), then `maybe_ping` calls `stop()`,
setting the disconnect flag; the worker loop then exits at its next
check and transitions to `CS_FAILED` (with the owner notified), rather
than waiting indefinitely.  The keepalive qualifier is needed: when the
ping is due, submitting it resets `request_time`, so that same
`maybe_ping` call does not shut down. -/
theorem claim_c8_amended (tv : V → Bool) (st : WState V) (e : IterEnv V)
    (h1 : st.status = CS_CONNECTED) (h2 : st.disconnect = false)
    (h3 : st.unanswered ≠ []) (h4 : e.now - st.request_time > 10)
    (h5 : e.idle > 10) (h6 : e.now - st.ping_time ≤ 60) :
    (maybe_ping e.now e.idle e.pingParams st).disconnect = true
    ∧ (∀ e2 rest, workerLoop tv (e :: e2 :: rest) st = .ok (finish (stop st)))
    ∧ (finish (stop st)).status = CS_FAILED := by
  have hnotping : ¬(e.now - st.ping_time > 60) := by omega
  have hempty : st.unanswered.isEmpty = false := by
    cases hu : st.unanswered.isEmpty
    · rfl
    · exact absurd (List.isEmpty_iff.mp hu) h3
  have hmp : maybe_ping e.now e.idle e.pingParams st = stop st := by
    unfold maybe_ping
    rw [if_neg hnotping]
    simp [hempty, h4, h5]
  have hconn : is_connected st = true := by
    simp [is_connected, h1, h2]
  have hnconn : is_connected (stop st) = false := by
    simp [is_connected, stop]
  have hsr : send_requests e.sendOk (stop st) = stop st := by
    unfold send_requests
    rw [hnconn]
    simp
  have hgp : get_and_process_response tv e.inbound (stop st) = .ok (stop st) := by
    unfold get_and_process_response
    rw [hnconn]
    simp
  refine ⟨by rw [hmp]; rfl, fun e2 rest => ?_, rfl⟩
  unfold workerLoop
  rw [hconn]
  simp only [iterate, hmp, hsr, hgp]
  unfold workerLoop
  rw [hnconn]
  simp

/-- C8 witness: a connected worker with one unanswered request submitted
50 time-units ago, a transport idle for 20 and a keepalive sent 50 ago:
`maybe_ping` disconnects and the loop ends in `CS_FAILED`. -/
theorem claim_c8_amended_witness :
    (maybe_ping 100 20 ([] : List Nat)
      ⟨CS_CONNECTED, false, 0, [(0, ⟨none, none, none, none⟩)], [], 50, 50, none, [], []⟩).disconnect = true
    ∧ workerLoop (fun v : Nat => decide (v ≠ 0))
        [⟨100, 20, [], [], InboundEv.timeoutEv⟩, ⟨101, 20, [], [], InboundEv.timeoutEv⟩]
        ⟨CS_CONNECTED, false, 0, [(0, ⟨none, none, none, none⟩)], [], 50, 50, none, [], []⟩ =
      .ok (finish (stop
        ⟨CS_CONNECTED, false, 0, [(0, ⟨none, none, none, none⟩)], [], 50, 50, none, [], []⟩))
    ∧ (finish (stop
        (⟨CS_CONNECTED, false, 0, [(0, ⟨none, none, none, none⟩)], [], 50, 50, none, [], []⟩ :
          WState Nat))).status = CS_FAILED := by
  have h := claim_c8_amended (fun v : Nat => decide (v ≠ 0))
    ⟨CS_CONNECTED, false, 0, [(0, ⟨none, none, none, none⟩)], [], 50, 50, none, [], []⟩
    ⟨100, 20, [], [], InboundEv.timeoutEv⟩
    rfl rfl (by decide) (by decide) (by decide) (by decide)
  exact ⟨h.1, h.2.1 ⟨101, 20, [], [], InboundEv.timeoutEv⟩ [], h.2.2⟩

/-- C8 counterexample: same staleness conditions (one unanswered request,
last submission 50 time-units ago, idle 20), but the keepalive is also
due (last ping 100 time-units ago): `maybe_ping` submits the ping, which
resets `request_time`, and does NOT set the disconnect flag — the claim
says this call initiates shutdown. -/
theorem claim_c8_counterexample :
    (maybe_ping 100 20 ([] : List Nat)
      ⟨CS_CONNECTED, false, 0, [(0, ⟨none, none, none, none⟩)], [], 50, 0, none, [], []⟩).disconnect
      = false := by
  rfl

/-- The ids handed out by `send_requests` continue the initial segment of
the naturals: if the frames already sent carry ids `0..message_id-1`,
they still do after any run of `send_requests`. -/
theorem send_requests_ids (oks : List Bool) (st : WState V)
    (h : st.sentFrames.map Frame.id = List.range st.message_id) :
    (send_requests oks st).sentFrames.map Frame.id =
      List.range (send_requests oks st).message_id := by
  induction oks, st using send_requests.induct with
  | case1 oks st hconn hq =>
    obtain ⟨s1, s2, s3, s4, s5, s6, s7, s8, s9, s10⟩ := st
    simp only at hq
    subst hq
    unfold send_requests
    rw [hconn]
    simpa using h
  | case2 oks st hconn req rq rest hq hok ih =>
    obtain ⟨s1, s2, s3, s4, s5, s6, s7, s8, s9, s10⟩ := st
    simp only at hq
    subst hq
    unfold send_requests
    rw [hconn]
    simp only [hok, if_true]
    exact ih (by simp at h ⊢; simp [h, List.range_succ])
  | case3 oks st hconn req rq rest hq hok =>
    obtain ⟨s1, s2, s3, s4, s5, s6, s7, s8, s9, s10⟩ := st
    simp only at hq
    subst hq
    unfold send_requests
    rw [hconn]
    simp only [hok, if_false, Bool.false_eq_true]
    simpa [stop] using h
  | case4 oks st hconn =>
    unfold send_requests
    rw [if_neg hconn]
    exact h

/-- C7: starting from a state whose sent frames carry the ids
`0 .. message_id - 1` (as a fresh connection does: no frames,
`message_id = 0`), any run of `send_requests` leaves the wire trace
carrying exactly the ids `0 .. message_id' - 1`: the assigned ids are
strictly increasing, each one greater than the previous by exactly one,
and no id is ever reused within the connection's lifetime (`message_id`
only grows, so later runs continue after the largest id ever sent). -/
theorem claim_c7_monotonic_ids (oks : List Bool) (st : WState V)
    (h : st.sentFrames.map Frame.id = List.range st.message_id) :
    (send_requests oks st).sentFrames.map Frame.id =
      List.range (send_requests oks st).message_id
    ∧ List.Pairwise (· < ·) ((send_requests oks st).sentFrames.map Frame.id)
    ∧ ((send_requests oks st).sentFrames.map Frame.id).Nodup
    ∧ ∀ i : Nat, ∀ h1 : i < (send_requests oks st).sentFrames.length,
        ∀ h2 : i + 1 < (send_requests oks st).sentFrames.length,
        ((send_requests oks st).sentFrames.get ⟨i + 1, h2⟩).id =
          ((send_requests oks st).sentFrames.get ⟨i, h1⟩).id + 1 := by
  have hids := send_requests_ids oks st h
  have hlen : (send_requests oks st).sentFrames.length =
      (send_requests oks st).message_id := by
    have := congrArg List.length hids
    simpa using this
  refine ⟨hids, ?_, ?_, ?_⟩
  · rw [hids]
    exact List.pairwise_lt_range _
  · rw [hids]
    exact List.nodup_range _
  · intro i h1 h2
    have hget : ∀ j : Nat, ∀ hj : j < (send_requests oks st).sentFrames.length,
        ((send_requests oks st).sentFrames.get ⟨j, hj⟩).id = j := by
      intro j hj
      have hb1 : j < ((send_requests oks st).sentFrames.map Frame.id).length := by
        simpa using hj
      have hb2 : j < (List.range (send_requests oks st).message_id).length := by
        rw [← hids]; exact hb1
      have e := congrArg (fun l => l.getD j 0) hids
      simp only at e
      rw [List.getD_eq_getElem _ _ hb1, List.getD_eq_getElem _ _ hb2] at e
      simpa [List.getElem_range] using e
    rw [hget i h1, hget (i + 1) h2]

/-- C7 witness: a fresh connection (`message_id = 0`, empty wire trace)
with two queued requests: after `send_requests` the wire trace carries
ids `[0, 1]`, strictly increasing and without reuse. -/
theorem claim_c7_monotonic_ids_witness :
    ((⟨CS_CONNECTED, false, 0, [], [(⟨some "a", some [], none⟩, none), (⟨some "b", some [], none⟩, none)],
        0, 0, none, [], []⟩ : WState Nat).sentFrames.map Frame.id =
      List.range (⟨CS_CONNECTED, false, 0, [], [(⟨some "a", some [], none⟩, none), (⟨some "b", some [], none⟩, none)],
        0, 0, none, [], []⟩ : WState Nat).message_id)
    ∧ (send_requests [] (⟨CS_CONNECTED, false, 0, [],
        [(⟨some "a", some [], none⟩, none), (⟨some "b", some [], none⟩, none)],
        0, 0, none, [], []⟩ : WState Nat)).sentFrames.map Frame.id =
      List.range (send_requests [] (⟨CS_CONNECTED, false, 0, [],
        [(⟨some "a", some [], none⟩, none), (⟨some "b", some [], none⟩, none)],
        0, 0, none, [], []⟩ : WState Nat)).message_id
    ∧ List.Pairwise (· < ·) ((send_requests [] (⟨CS_CONNECTED, false, 0, [],
        [(⟨some "a", some [], none⟩, none), (⟨some "b", some [], none⟩, none)],
        0, 0, none, [], []⟩ : WState Nat)).sentFrames.map Frame.id) := by
  refine ⟨rfl, ?_, ?_⟩
  · exact (claim_c7_monotonic_ids []
      (⟨CS_CONNECTED, false, 0, [],
        [(⟨some "a", some [], none⟩, none), (⟨some "b", some [], none⟩, none)],
        0, 0, none, [], []⟩ : WState Nat) rfl).1
  · exact (claim_c7_monotonic_ids []
      (⟨CS_CONNECTED, false, 0, [],
        [(⟨some "a", some [], none⟩, none), (⟨some "b", some [], none⟩, none)],
        0, 0, none, [], []⟩ : WState Nat) rfl).2.1

/-- Every character `b64chr` produces is in the base64 alphabet (also for
out-of-range input, where the default is the alphabet head). -/
theorem isB64_b64chr (n : Nat) : isB64 (b64chr n) = true := by
  unfold b64chr
  by_cases h : n < b64alphabet.length
  · rw [List.getD_eq_getElem _ _ h]
    simp only [isB64, decide_eq_true_eq]
    exact List.getElem_mem h
  · rw [List.getD_eq_default _ _ (Nat.le_of_not_lt h)]
    decide

/-- Decoding inverts the digit table on the `0..63` range. -/
theorem b64dval_b64chr : ∀ n, n < 64 → b64dval (b64chr n) = n := by decide

/-- Characters of a base64 encoding are alphabet digits or padding. -/
theorem mem_b64encode : ∀ (b : List Nat), ∀ c ∈ b64encode b, isB64 c = true ∨ c = '=' := by
  intro b
  induction b using b64encode.induct with
  | case1 => simp [b64encode]
  | case2 x =>
    intro c hc
    simp only [b64encode, List.mem_cons, List.not_mem_nil, or_false] at hc
    rcases hc with rfl | rfl | rfl | rfl
    · exact Or.inl (isB64_b64chr _)
    · exact Or.inl (isB64_b64chr _)
    · exact Or.inr rfl
    · exact Or.inr rfl
  | case3 x y =>
    intro c hc
    simp only [b64encode, List.mem_cons, List.not_mem_nil, or_false] at hc
    rcases hc with rfl | rfl | rfl | rfl
    · exact Or.inl (isB64_b64chr _)
    · exact Or.inl (isB64_b64chr _)
    · exact Or.inl (isB64_b64chr _)
    · exact Or.inr rfl
  | case4 x y z rest ih =>
    intro c hc
    simp only [b64encode, List.mem_cons] at hc
    rcases hc with rfl | rfl | rfl | rfl | hc
    · exact Or.inl (isB64_b64chr _)
    · exact Or.inl (isB64_b64chr _)
    · exact Or.inl (isB64_b64chr _)
    · exact Or.inl (isB64_b64chr _)
    · exact ih c hc

/-- Characters of the wrapped text come from the text or are newlines. -/
theorem mem_wrap64 : ∀ (s : List Char), ∀ c ∈ wrap64 s, c ∈ s ∨ c = '\n' := by
  intro s
  induction s using wrap64.induct with
  | case1 => simp [wrap64]
  | case2 hd tl ih =>
    intro c hc
    rw [wrap64] at hc
    simp only [List.mem_append, List.mem_cons] at hc
    rcases hc with h | h | h
    · exact Or.inl (List.mem_of_mem_take h)
    · exact Or.inr h
    · rcases ih c h with h2 | h2
      · exact Or.inl (List.mem_of_mem_drop h2)
      · exact Or.inr h2

/-- Filtering with a newline-rejecting predicate undoes line wrapping. -/
theorem filter_wrap64 (p : Char → Bool) (hp : p '\n' = false) :
    ∀ s : List Char, (wrap64 s).filter p = s.filter p := by
  have hp2 : ¬p '\n' = true := by simp [hp]
  intro s
  induction s using wrap64.induct with
  | case1 => simp [wrap64]
  | case2 hd tl ih =>
    rw [wrap64, List.filter_append, List.filter_cons_of_neg hp2, ih,
      ← List.filter_append, List.take_append_drop]

/-- Dropping the padding, base64 decoding inverts base64 encoding. -/
theorem b64dec_filter_encode : ∀ (b : List Nat), (∀ x ∈ b, x < 256) →
    b64dec ((b64encode b).filter isB64) = b := by
  have hpad : isB64 '=' = false := by decide
  intro b
  induction b using b64encode.induct with
  | case1 => intro _; rfl
  | case2 x =>
    intro hb
    have hx : x < 256 := hb x (by simp)
    have h1 : x / 4 < 64 := by omega
    have h2 : x % 4 * 16 < 64 := by omega
    simp only [b64encode, List.filter, isB64_b64chr, hpad, b64dec,
      b64dval_b64chr _ h1, b64dval_b64chr _ h2]
    simp only [List.cons.injEq, and_true]
    omega
  | case3 x y =>
    intro hb
    have hx : x < 256 := hb x (by simp)
    have hy : y < 256 := hb y (by simp)
    have h1 : x / 4 < 64 := by omega
    have h2 : x % 4 * 16 + y / 16 < 64 := by omega
    have h3 : y % 16 * 4 < 64 := by omega
    simp only [b64encode, List.filter, isB64_b64chr, hpad, b64dec,
      b64dval_b64chr _ h1, b64dval_b64chr _ h2, b64dval_b64chr _ h3]
    simp only [List.cons.injEq, and_true]
    omega
  | case4 x y z rest ih =>
    intro hb
    have hx : x < 256 := hb x (by simp)
    have hy : y < 256 := hb y (by simp)
    have hz : z < 256 := hb z (by simp)
    have hrest : ∀ w ∈ rest, w < 256 := fun w hw => hb w (by simp [hw])
    have h1 : x / 4 < 64 := by omega
    have h2 : x % 4 * 16 + y / 16 < 64 := by omega
    have h3 : y % 16 * 4 + z / 64 < 64 := by omega
    have h4 : z % 64 < 64 := by omega
    simp only [b64encode, List.filter, isB64_b64chr]
    simp only [b64dec, b64dval_b64chr _ h1, b64dval_b64chr _ h2,
      b64dval_b64chr _ h3, b64dval_b64chr _ h4, ih hrest]
    simp only [List.cons.injEq, and_true]
    omega

/-- A list is a `isPrefixOf`-prefix of itself followed by anything. -/
theorem isPrefixOf_self_append : ∀ (l v : List Char), l.isPrefixOf (l ++ v) = true := by
  intro l v
  induction l with
  | nil => simp [List.isPrefixOf]
  | cons c t ih => simp [List.isPrefixOf, ih]

/-- The scan succeeds immediately on a match at the current position. -/
theorem strFindAux_of_isPrefixOf (pat s : List Char) (i : Nat)
    (h : pat.isPrefixOf s = true) : strFindAux pat s i = some i := by
  cases s with
  | nil => simp [strFindAux, h]
  | cons c t => simp [strFindAux, h]

/-- Scanning for a dash-headed delimiter over dash-free text finds the
first genuine occurrence. -/
theorem strFindAux_skip (pt v : List Char) :
    ∀ (u : List Char) (i : Nat), (∀ c ∈ u, c ≠ '-') →
      strFindAux ('-' :: pt) (u ++ ('-' :: pt ++ v)) i = some (i + u.length) := by
  intro u
  induction u with
  | nil =>
    intro i _
    simpa using strFindAux_of_isPrefixOf ('-' :: pt) (('-' :: pt) ++ v) i
      (isPrefixOf_self_append _ _)
  | cons c t ih =>
    intro i hu
    have hc : c ≠ '-' := hu c (by simp)
    have hshape : (c :: t) ++ ('-' :: pt ++ v) = c :: (t ++ ('-' :: pt ++ v)) := by
      simp
    rw [hshape, strFindAux]
    have hnp : ('-' :: pt).isPrefixOf (c :: (t ++ ('-' :: pt ++ v))) = false := by
      simp only [List.isPrefixOf, Bool.and_eq_false_iff]
      left
      simpa using fun h => hc h.symm
    rw [hnp]
    simp only [Bool.false_eq_true, if_false]
    rw [ih (i + 1) (fun d hd => hu d (by simp [hd]))]
    simp only [List.length_cons]
    congr 1
    omega

/-- C2: PEM round-trip.  For every byte sequence (the empty sequence and
sequences spanning several 64-character base64 lines included) and every
label, decoding an encoded block returns the original payload:
`dePem (pem b name) name = ok b`. -/
theorem claim_c2_pem_roundtrip (b : List Nat) (name : List Char)
    (hb : ∀ x ∈ b, x < 256) :
    dePem (pem b name) name = .ok b := by
  have hdropl : (b2a_base64 b).dropLast = b64encode b := by
    simp [b2a_base64]
  have hs : pem b name =
      pemMsgPre name ++
        ('\n' :: (wrap64 (b64encode b) ++ (pemMsgPost name ++ ['\n']))) := by
    rw [pem, hdropl]
  -- no character before the END delimiter is a dash
  have hdash : isB64 '-' = false := by decide
  have hu : ∀ c ∈ '\n' :: wrap64 (b64encode b), c ≠ '-' := by
    intro c hc
    rcases List.mem_cons.mp hc with rfl | hc2
    · decide
    · rcases mem_wrap64 _ c hc2 with h2 | rfl
      · rcases mem_b64encode _ c h2 with h3 | rfl
        · intro he
          rw [he, hdash] at h3
          cases h3
        · decide
      · decide
  -- the BEGIN delimiter is found at index 0
  have hfind1 : strFind (pemMsgPre name) (pem b name) 0 = some 0 := by
    unfold strFind
    rw [if_pos (Nat.zero_le _), List.drop_zero, hs]
    exact strFindAux_of_isPrefixOf _ _ _ (isPrefixOf_self_append _ _)
  -- the text after the BEGIN delimiter
  have hdrop2 : (pem b name).drop (pemMsgPre name).length =
      ('\n' :: wrap64 (b64encode b)) ++ (pemMsgPost name ++ ['\n']) := by
    rw [hs]
    exact List.drop_left _ _
  -- the END delimiter starts with a dash
  obtain ⟨pt, hpt⟩ : ∃ pt, pemMsgPost name = '-' :: pt :=
    ⟨"----END ".toList ++ (name ++ "-----".toList), rfl⟩
  have hlen : (pemMsgPre name).length ≤ (pem b name).length := by
    rw [hs, List.length_append]
    omega
  -- the END delimiter is found right after the wrapped payload
  have hfind2 : strFind (pemMsgPost name) (pem b name) (0 + (pemMsgPre name).length) =
      some ((pemMsgPre name).length + (1 + (wrap64 (b64encode b)).length)) := by
    unfold strFind
    rw [if_pos (by simpa using hlen), Nat.zero_add, hdrop2, hpt,
      strFindAux_skip pt ['\n'] ('\n' :: wrap64 (b64encode b)) (pemMsgPre name).length hu]
    simp [Nat.add_comm]
  -- assemble
  simp only [dePem, hfind1, hfind2]
  simp only [Nat.zero_add]
  rw [hdrop2]
  have htake : (('\n' :: wrap64 (b64encode b)) ++ (pemMsgPost name ++ ['\n'])).take
      ((pemMsgPre name).length + (1 + (wrap64 (b64encode b)).length) - (pemMsgPre name).length) =
      '\n' :: wrap64 (b64encode b) := by
    have harith : (pemMsgPre name).length + (1 + (wrap64 (b64encode b)).length) -
        (pemMsgPre name).length = ('\n' :: wrap64 (b64encode b)).length := by
      simp only [List.length_cons]
      omega
    rw [harith]
    exact List.take_left _ _
  rw [htake]
  show Except.ok (a2b_base64 ('\n' :: wrap64 (b64encode b))) = Except.ok b
  have hnl : ¬isB64 '\n' = true := by decide
  rw [a2b_base64, List.filter_cons_of_neg hnl,
    filter_wrap64 isB64 (by decide), b64dec_filter_encode b hb]

/-- C2 witness: the round-trip at a concrete 70-byte payload (three
base64 lines) under the label `CERTIFICATE`, and at the empty payload. -/
theorem claim_c2_pem_roundtrip_witness :
    (∀ x ∈ List.range 70, x < 256)
    ∧ dePem (pem (List.range 70) "CERTIFICATE".toList) "CERTIFICATE".toList =
        .ok (List.range 70)
    ∧ dePem (pem [] "X".toList) "X".toList = .ok [] := by
  refine ⟨by decide, ?_, ?_⟩
  · exact claim_c2_pem_roundtrip (List.range 70) "CERTIFICATE".toList (by decide)
  · exact claim_c2_pem_roundtrip [] "X".toList (by decide)

end Electrum
